import Mathlib

/-!
Verification of the Item Tracker API (QTrace-API): a shallow embedding of
`app/models.py`, `app/schema.py`, `app/crud.py` and `app/main.py`.

The relational store is modelled as a list of rows in insertion order
(the order a sequential scan of a freshly populated table enumerates;
note `crud.get_items` issues no ORDER BY, which matters below).
Timestamps are naturals (abstract server clock readings).
-/

namespace ItemTracker

/-- A row of the `items` table (`app/models.py`).  Column nullability follows
the schema: `name`, `status`, `is_fragile` are NOT NULL; `description`,
`location`, `category`, `image_url` are nullable. -/
structure Item where
  id : Nat
  name : String
  description : Option String := none
  location : Option String := none
  status : String := "active"
  category : Option String := none
  is_fragile : Bool := false
  image_url : Option String := none
  created_at : Nat
  updated_at : Nat
deriving Repr, DecidableEq

/-- Case folding used by ILIKE: both operands lowercased. -/
def foldCase (s : String) : List Char :=
  s.toList.map Char.toLower

/-- SQL LIKE pattern matching over characters, as PostgreSQL evaluates the
pattern `crud.get_items` builds with `ilike`: `%` matches any sequence of
characters, `_` matches exactly one character, backslash (the default escape
character) forces the next pattern character to be taken literally, and any
other pattern character matches itself.  A pattern ending in a bare escape
character matches nothing. -/
def likeMatches : List Char → List Char → Bool
  | [], t => t.isEmpty
  | p :: ps, t =>
    if p = '%' then
      t.tails.any fun suf => likeMatches ps suf
    else if p = '_' then
      (match t with
       | [] => false
       | _ :: ts => likeMatches ps ts)
    else if p = '\\' then
      (match ps with
       | [] => false
       | q :: ps2 =>
         match t with
         | [] => false
         | c :: ts => q == c && likeMatches ps2 ts)
    else
      (match t with
       | [] => false
       | c :: ts => p == c && likeMatches ps ts)

/-- `pattern.ilike(value)` of SQLAlchemy on PostgreSQL: case-insensitive
LIKE. -/
def ilikeMatch (pat s : String) : Bool :=
  likeMatches (foldCase pat) (foldCase s)

/-- One `if param: query = query.filter(...)` line of `crud.get_items`:
Python truthiness means the filter is skipped both for `None` and for the
empty string. -/
def condFilter (pred : String → Item → Bool) (param : Option String)
    (q : List Item) : List Item :=
  match param with
  | some s => if s.isEmpty then q else q.filter (pred s)
  | none => q

/-- The predicate a `condFilter` stage imposes on a row (vacuously true when
the parameter is absent or empty). -/
def condPred (pred : String → Item → Bool) (param : Option String)
    (it : Item) : Bool :=
  match param with
  | some s => if s.isEmpty then true else pred s it
  | none => true

/-- The conditional filter chain of `crud.get_items` (lines 24-34): each
parameter, when truthy, adds one conjunct.  `name` and `location` use `ilike`
with the parameter wrapped in `%…%`; `status` and `category` use SQL equality
(a NULL `category` column never equals a string, and a NULL `location` never
matches ILIKE). -/
def filterQuery (search status category location : Option String)
    (rows : List Item) : List Item :=
  let q := rows
  let q := condFilter (fun s it => ilikeMatch ("%" ++ s ++ "%") it.name) search q
  let q := condFilter (fun s it => it.status == s) status q
  let q := condFilter (fun c it => it.category == some c) category q
  let q := condFilter
    (fun l it =>
      match it.location with
      | some loc => ilikeMatch ("%" ++ l ++ "%") loc
      | none => false) location q
  q

/-- `crud.get_items`: apply the filters, count the matches before pagination
(`total = query.count()`), then slice with `offset(skip).limit(limit)`. -/
def get_items (rows : List Item) (skip limit : Nat)
    (search status category location : Option String) : List Item × Nat :=
  let q := filterQuery search status category location rows
  let total := q.length
  let items := (q.drop skip).take limit
  (items, total)

/-- `crud.get_item`: `query.filter(Item.id == item_id).first()`. -/
def get_item (rows : List Item) (item_id : Nat) : Option Item :=
  rows.find? fun it => it.id == item_id

/-- `schema.ItemCreate`, after pydantic validation and defaulting: `name`
required, `status` defaults to "active", `is_fragile` to `False`, the rest
to `None`. -/
structure ItemCreate where
  name : String
  description : Option String := none
  location : Option String := none
  status : String := "active"
  category : Option String := none
  is_fragile : Bool := false
  image_url : Option String := none
deriving Repr, DecidableEq

/-- `schema.ItemUpdate` with pydantic presence tracking, as consumed through
`item_update.dict(exclude_unset=True)`: the outer `none` means the field was
absent from the request body (dropped by `exclude_unset`); `some v` means the
field was explicitly supplied with value `v`, where the inner `none` encodes
an explicit JSON `null`. -/
structure ItemUpdate where
  name : Option (Option String) := none
  description : Option (Option String) := none
  location : Option (Option String) := none
  status : Option (Option String) := none
  category : Option (Option String) := none
  is_fragile : Option (Option Bool) := none
  image_url : Option (Option String) := none
deriving Repr, DecidableEq

/-- The state of the `items` table together with the autoincrement counter of
the integer primary key. -/
structure DB where
  rows : List Item
  nextId : Nat
deriving Repr, DecidableEq

/-- `crud.create_item`: `Item(**item.dict())` with the server defaults of
`models.py` (`id` from the sequence, `created_at`/`updated_at` set to
`now()`), then `add`/`commit`. -/
def create_item (db : DB) (c : ItemCreate) (now : Nat) : Item × DB :=
  let it : Item :=
    { id := db.nextId, name := c.name, description := c.description,
      location := c.location, status := c.status, category := c.category,
      is_fragile := c.is_fragile, image_url := c.image_url,
      created_at := now, updated_at := now }
  (it, ⟨db.rows ++ [it], db.nextId + 1⟩)

/-- Outcome of `crud.update_item`: `None` for a missing id, the updated row on
success, or the `IntegrityError` the commit raises when a NOT NULL column was
assigned `None` by the `setattr` loop. -/
inductive UpdateOutcome where
  | notFound
  | integrityError
  | updated (it : Item)
deriving Repr, DecidableEq

/-- `models.py` declares `name`, `status` and `is_fragile` as
`nullable=False`; writing an explicit null into one of them makes the UPDATE
fail at commit. -/
def violatesNotNull (u : ItemUpdate) : Bool :=
  u.name == some none || u.status == some none || u.is_fragile == some none

/-- The `setattr` loop of `crud.update_item` over
`item_update.dict(exclude_unset=True)`, followed by
`db_item.updated_at = func.now()`. -/
def setFields (it : Item) (u : ItemUpdate) (now : Nat) : Item :=
  { it with
    name := match u.name with | some (some v) => v | _ => it.name
    description := match u.description with | some v => v | none => it.description
    location := match u.location with | some v => v | none => it.location
    status := match u.status with | some (some v) => v | _ => it.status
    category := match u.category with | some v => v | none => it.category
    is_fragile := match u.is_fragile with | some (some v) => v | _ => it.is_fragile
    image_url := match u.image_url with | some v => v | none => it.image_url
    updated_at := now }

/-- Replace the row with the given primary key (unique in a well-formed
table). -/
def replaceById (rows : List Item) (item_id : Nat) (newIt : Item) : List Item :=
  rows.map fun it => if it.id == item_id then newIt else it

/-- `crud.update_item`: look the row up with `first()`; `None` when absent
(the table untouched, no row created); otherwise apply the supplied fields and
commit.  A failing commit (NOT NULL violation) rolls the transaction back, so
the stored table is unchanged in that case. -/
def update_item (rows : List Item) (item_id : Nat) (u : ItemUpdate)
    (now : Nat) : UpdateOutcome × List Item :=
  match rows.find? (fun it => it.id == item_id) with
  | none => (.notFound, rows)
  | some it =>
    if violatesNotNull u then (.integrityError, rows)
    else
      let it2 := setFields it u now
      (.updated it2, replaceById rows item_id it2)

/-- `crud.delete_item`: `False` when the id has no row (table untouched),
otherwise remove the row and report `True`. -/
def delete_item (rows : List Item) (item_id : Nat) : Bool × List Item :=
  match rows.find? (fun it => it.id == item_id) with
  | none => (false, rows)
  | some _ => (true, rows.filter fun it => !(it.id == item_id))

/-- A transport-level outcome of one endpoint call: a 2xx payload, a 4xx
client error with its `detail` string, or a 5xx server error. -/
inductive ApiResult (α : Type) where
  | ok (val : α)
  | clientError (code : Nat) (detail : String)
  | serverError (code : Nat)
deriving Repr, DecidableEq

/-- The HTTP status an `ApiResult` is sent with. -/
def ApiResult.statusCode {α : Type} : ApiResult α → Nat
  | .ok _ => 200
  | .clientError c _ => c
  | .serverError c => c

/-- The `schema.ItemList` response body of `GET /items/`. -/
structure ItemList where
  items : List Item
  total : Nat
  page : Nat
  per_page : Nat
  pages : Nat
deriving Repr, DecidableEq

/-- `main.read_items` (`GET /items/`): FastAPI `Query` validation (`skip ≥ 0`,
`1 ≤ limit ≤ 100`) rejects with a 422 before the handler body runs; then
`crud.get_items` and the pagination arithmetic
`pages = math.ceil(total / limit) if total > 0 else 1`,
`page = (skip // limit) + 1`.  The natural-number form of the ceiling,
`(total + limit - 1) / limit`, is exact because `limit ≥ 1` here.  `fault`
models the persistence layer raising while the handler runs: the handler has
no try/except, so the exception becomes a 500. -/
def read_items (fault : Bool) (rows : List Item) (skip limit : Int)
    (search status category location : Option String) : ApiResult ItemList :=
  if skip < 0 then
    .clientError 422 "skip must be greater than or equal to 0"
  else if limit < 1 then
    .clientError 422 "limit must be greater than or equal to 1"
  else if 100 < limit then
    .clientError 422 "limit must be less than or equal to 100"
  else if fault then
    .serverError 500
  else
    let r := get_items rows skip.toNat limit.toNat search status category location
    let pages := if 0 < r.2 then (r.2 + limit.toNat - 1) / limit.toNat else 1
    let page := skip.toNat / limit.toNat + 1
    .ok { items := r.1, total := r.2, page := page,
          per_page := limit.toNat, pages := pages }

/-- `main.read_item` (`GET /items/{id}`): 404 with "Item not found" when
`crud.get_item` returns `None`; an uncaught storage fault becomes a 500. -/
def read_item (fault : Bool) (rows : List Item) (item_id : Nat) :
    ApiResult Item :=
  if fault then .serverError 500
  else
    match get_item rows item_id with
    | none => .clientError 404 "Item not found"
    | some it => .ok it

/-- `main.create_new_item` (`POST /items/`): the handler wraps
`crud.create_item` in `try/except Exception` and maps ANY failure —
including a storage fault — to
`HTTPException(status_code=400, detail=f"Error creating item: ...")`. -/
def create_new_item (fault : Bool) (db : DB) (c : ItemCreate) (now : Nat) :
    ApiResult Item × DB :=
  if fault then
    (.clientError 400 "Error creating item: storage failure", db)
  else
    let r := create_item db c now
    (.ok r.1, r.2)

/-- `main.update_existing_item` (`PUT /items/{id}`): 404 when
`crud.update_item` returns `None`; no try/except, so an `IntegrityError` or a
storage fault propagates as a 500. -/
def update_existing_item (fault : Bool) (rows : List Item) (item_id : Nat)
    (u : ItemUpdate) (now : Nat) : ApiResult Item × List Item :=
  if fault then (.serverError 500, rows)
  else
    match update_item rows item_id u now with
    | (.notFound, rows2) => (.clientError 404 "Item not found", rows2)
    | (.integrityError, rows2) => (.serverError 500, rows2)
    | (.updated it, rows2) => (.ok it, rows2)

/-- `main.delete_existing_item` (`DELETE /items/{id}`): 404 when
`crud.delete_item` reports `False`; no try/except, so a storage fault
propagates as a 500. -/
def delete_existing_item (fault : Bool) (rows : List Item) (item_id : Nat) :
    ApiResult String × List Item :=
  if fault then (.serverError 500, rows)
  else
    match delete_item rows item_id with
    | (false, rows2) => (.clientError 404 "Item not found", rows2)
    | (true, rows2) => (.ok "Item deleted successfully", rows2)

/-- One mutating request against the store, for reasoning about operation
sequences. -/
inductive Op where
  | create (c : ItemCreate)
  | update (item_id : Nat) (u : ItemUpdate)
  | delete (item_id : Nat)
deriving Repr

/-- Effect of one mutating request on the table, issued at server time `t`. -/
def stepOp (db : DB) (op : Op) (t : Nat) : DB :=
  match op with
  | .create c => (create_item db c t).2
  | .update i u => ⟨(update_item db.rows i u t).2, db.nextId⟩
  | .delete i => ⟨(delete_item db.rows i).2, db.nextId⟩

/-- Run a sequence of timestamped mutating requests. -/
def runOps (db : DB) : List (Op × Nat) → DB
  | [] => db
  | (op, t) :: rest => runOps (stepOp db op t) rest

/-- The requests' server times are nondecreasing and start no earlier than
`t0`. -/
def chrono (t0 : Nat) : List (Op × Nat) → Bool
  | [] => true
  | (_, t) :: rest => decide (t0 ≤ t) && chrono t rest

/-- Every stored row was created no later than it was last updated, and not
after time `t0`. -/
def TimeInv (t0 : Nat) (db : DB) : Prop :=
  ∀ it ∈ db.rows, it.created_at ≤ it.updated_at ∧ it.updated_at ≤ t0

/-- `needle` occurs at the start of `hay`. -/
def beginsWith : List Char → List Char → Bool
  | [], _ => true
  | _ :: _, [] => false
  | a :: as, b :: bs => a == b && beginsWith as bs

/-- `needle` occurs contiguously somewhere inside `hay`. -/
def hasSub (needle : List Char) : List Char → Bool
  | [] => beginsWith needle []
  | c :: ts => beginsWith needle (c :: ts) || hasSub needle ts

/-- The spec's reading of the `search` and `location` filters, written from
its words "free-text substring match (case-insensitive)": the lowercased
needle occurs contiguously inside the lowercased haystack. -/
def substrCI (needle hay : String) : Bool :=
  hasSub (foldCase needle) (foldCase hay)

/-- The pattern characters that LIKE treats specially. -/
def litOnly (l : List Char) : Bool :=
  l.all fun c => !(c == '%' || c == '_' || c == '\\')

/-! ### Concrete fixtures used in counterexamples and witnesses -/

def itemA : Item := { id := 1, name := "Lamp", created_at := 0, updated_at := 0 }

def itemAXB : Item := { id := 1, name := "axb", created_at := 0, updated_at := 0 }

def rowA : Item := { id := 1, name := "a", created_at := 0, updated_at := 0 }

def rowB : Item := { id := 2, name := "b", created_at := 0, updated_at := 0 }

def updNullName : ItemUpdate := { name := some none }

def updAttic : ItemUpdate := { location := some (some "Attic") }

def lampCreate : ItemCreate := { name := "Lamp" }

def emptyDB : DB := ⟨[], 1⟩

/-! ### Helper lemmas about LIKE pattern matching -/

theorem like_cons_eq (p : Char) (ps t : List Char) :
    likeMatches (p :: ps) t =
      if p = '%' then t.tails.any fun suf => likeMatches ps suf
      else if p = '_' then
        (match t with
         | [] => false
         | _ :: ts => likeMatches ps ts)
      else if p = '\\' then
        (match ps with
         | [] => false
         | q :: ps2 =>
           match t with
           | [] => false
           | c :: ts => q == c && likeMatches ps2 ts)
      else
        (match t with
         | [] => false
         | c :: ts => p == c && likeMatches ps ts) := by
  cases ps <;> rfl

theorem beginsWith_iff : ∀ n h : List Char,
    beginsWith n h = true ↔ ∃ rest, h = n ++ rest
  | [], h => by simp [beginsWith]
  | a :: as, [] => by simp [beginsWith]
  | a :: as, b :: bs => by
    simp only [beginsWith, Bool.and_eq_true, beq_iff_eq, List.cons_append,
      beginsWith_iff as bs]
    constructor
    · rintro ⟨rfl, rest, rfl⟩
      exact ⟨rest, rfl⟩
    · rintro ⟨rest, heq⟩
      injection heq with h1 h2
      exact ⟨h1.symm, rest, h2⟩

theorem hasSub_iff : ∀ n h : List Char,
    hasSub n h = true ↔ ∃ pre post, h = pre ++ n ++ post
  | n, [] => by
    simp only [hasSub, beginsWith_iff]
    constructor
    · rintro ⟨rest, heq⟩
      exact ⟨[], rest, by simpa using heq⟩
    · rintro ⟨pre, post, heq⟩
      rcases List.append_eq_nil.mp heq.symm with ⟨h1, h2⟩
      rcases List.append_eq_nil.mp h1 with ⟨h3, h4⟩
      exact ⟨[], by simp [h4]⟩
  | n, c :: ts => by
    simp only [hasSub, Bool.or_eq_true, beginsWith_iff, hasSub_iff n ts]
    constructor
    · rintro (⟨rest, heq⟩ | ⟨pre, post, rfl⟩)
      · exact ⟨[], rest, by simpa using heq⟩
      · exact ⟨c :: pre, post, by simp⟩
    · rintro ⟨pre, post, heq⟩
      rcases pre with _ | ⟨d, pre'⟩
      · exact Or.inl ⟨post, by simpa using heq⟩
      · injection heq with h1 h2
        exact Or.inr ⟨pre', post, h2⟩

theorem like_percent (ps t : List Char) :
    likeMatches ('%' :: ps) t = true ↔
      ∃ suf, suf <:+ t ∧ likeMatches ps suf = true := by
  rw [like_cons_eq]
  simp [List.any_eq_true, List.mem_tails]

theorem like_percent_nil (t : List Char) : likeMatches ['%'] t = true := by
  rw [like_percent]
  exact ⟨[], List.nil_suffix, by simp [likeMatches]⟩

theorem like_lit : ∀ n : List Char, litOnly n = true → ∀ p h : List Char,
    likeMatches (n ++ p) h = true ↔
      ∃ rest, h = n ++ rest ∧ likeMatches p rest = true
  | [], _, p, h => by simp
  | c :: n', hlit, p, h => by
    have hl : litOnly n' = true ∧ ¬c = '%' ∧ ¬c = '_' ∧ ¬c = '\\' := by
      simp only [litOnly, List.all_cons, Bool.and_eq_true, Bool.not_eq_eq_eq_not,
        Bool.not_true, Bool.or_eq_false_iff, beq_eq_false_iff_ne, ne_eq] at hlit
      exact ⟨hlit.2, hlit.1.1.1, hlit.1.1.2, hlit.1.2⟩
    rcases h with _ | ⟨d, hs⟩
    · rw [List.cons_append, like_cons_eq, if_neg hl.2.1, if_neg hl.2.2.1,
        if_neg hl.2.2.2]
      simp
    · rw [List.cons_append, like_cons_eq, if_neg hl.2.1, if_neg hl.2.2.1,
        if_neg hl.2.2.2]
      simp only [Bool.and_eq_true, beq_iff_eq, like_lit n' hl.1 p hs]
      constructor
      · rintro ⟨rfl, rest, rfl, hm⟩
        exact ⟨rest, rfl, hm⟩
      · rintro ⟨rest, heq, hm⟩
        injection heq with h1 h2
        exact ⟨h1.symm, rest, h2, hm⟩

theorem like_wrap_iff_hasSub (n h : List Char) (hlit : litOnly n = true) :
    likeMatches ('%' :: (n ++ ['%'])) h = hasSub n h := by
  rw [Bool.eq_iff_iff, like_percent, hasSub_iff]
  constructor
  · rintro ⟨suf, ⟨pre, rfl⟩, hm⟩
    rw [like_lit n hlit] at hm
    obtain ⟨rest, rfl, _⟩ := hm
    exact ⟨pre, rest, by simp⟩
  · rintro ⟨pre, post, rfl⟩
    refine ⟨n ++ post, ⟨pre, by simp⟩, ?_⟩
    rw [like_lit n hlit]
    exact ⟨post, rfl, like_percent_nil post⟩

theorem foldCase_append (s t : String) :
    foldCase (s ++ t) = foldCase s ++ foldCase t := by
  simp [foldCase, String.toList, String.data_append]

/-- On search strings whose lowercasing contains none of the LIKE
metacharacters `%`, `_`, `\`, the filter `ilike("%" + s + "%")` built by
`crud.get_items` agrees with the spec's case-insensitive substring match. -/
theorem ilike_substr (s t : String) (hlit : litOnly (foldCase s) = true) :
    ilikeMatch ("%" ++ s ++ "%") t = substrCI s t := by
  unfold ilikeMatch substrCI
  rw [foldCase_append, foldCase_append]
  rw [show foldCase "%" = ['%'] from rfl]
  rw [show (['%'] ++ foldCase s) ++ ['%'] = '%' :: (foldCase s ++ ['%']) by simp]
  exact like_wrap_iff_hasSub _ _ hlit

/-! ### The filter chain as a conjunction of per-parameter predicates -/

/-- The `search` conjunct of `crud.get_items` as a standalone predicate. -/
def searchPred (search : Option String) (it : Item) : Bool :=
  condPred (fun s it => ilikeMatch ("%" ++ s ++ "%") it.name) search it

/-- The `status` conjunct of `crud.get_items` as a standalone predicate. -/
def statusPred (status : Option String) (it : Item) : Bool :=
  condPred (fun s it => it.status == s) status it

/-- The `category` conjunct of `crud.get_items` as a standalone predicate. -/
def categoryPred (category : Option String) (it : Item) : Bool :=
  condPred (fun c it => it.category == some c) category it

/-- The `location` conjunct of `crud.get_items` as a standalone predicate. -/
def locationPred (location : Option String) (it : Item) : Bool :=
  condPred
    (fun l it =>
      match it.location with
      | some loc => ilikeMatch ("%" ++ l ++ "%") loc
      | none => false) location it

theorem mem_condFilter (pred : String → Item → Bool) (param : Option String)
    (q : List Item) (it : Item) :
    it ∈ condFilter pred param q ↔ it ∈ q ∧ condPred pred param it = true := by
  rcases param with _ | s
  · simp [condFilter, condPred]
  · by_cases h : s.isEmpty <;>
      simp [condFilter, condPred, h, List.mem_filter]

theorem mem_filterQuery (s st c l : Option String) (rows : List Item)
    (it : Item) :
    it ∈ filterQuery s st c l rows ↔
      it ∈ rows ∧ searchPred s it = true ∧ statusPred st it = true ∧
        categoryPred c it = true ∧ locationPred l it = true := by
  unfold filterQuery searchPred statusPred categoryPred locationPred
  simp only [mem_condFilter]
  tauto

/-! ### Pagination as a partition of the match list -/

theorem join_chunks {α : Type} :
    ∀ (n l : Nat) (m : List α), m.length ≤ n * l →
      ((List.range n).map fun k => (m.drop (k * l)).take l).flatten = m := by
  intro n
  induction n with
  | zero =>
    intro l m h
    simp only [Nat.zero_mul, Nat.le_zero, List.length_eq_zero] at h
    simp [h]
  | succ n ih =>
    intro l m h
    rw [Nat.succ_mul] at h
    rw [List.range_succ_eq_map]
    simp only [List.map_cons, List.map_map, List.flatten_cons]
    have hmap : ∀ k ∈ List.range n,
        ((fun k => (m.drop (k * l)).take l) ∘ Nat.succ) k =
          (fun k => (((m.drop l).drop (k * l)).take l)) k := by
      intro k _
      simp only [Function.comp]
      rw [List.drop_drop, Nat.succ_mul, Nat.add_comm]
    rw [List.map_congr_left hmap,
      ih l (m.drop l) (by rw [List.length_drop]; omega)]
    rw [Nat.zero_mul, List.drop_zero]
    exact List.take_append_drop l m

/-! ### Timestamp and identity invariants over operation sequences -/

theorem timeInv_step (db : DB) (op : Op) (t t0 : Nat) (hinv : TimeInv t0 db)
    (ht : t0 ≤ t) : TimeInv t (stepOp db op t) := by
  rcases op with c | ⟨i, u⟩ | i
  · intro it hit
    simp only [stepOp, create_item, List.mem_append, List.mem_singleton] at hit
    rcases hit with hit | rfl
    · exact ⟨(hinv it hit).1, le_trans (hinv it hit).2 ht⟩
    · exact ⟨le_refl _, le_refl _⟩
  · intro it hit
    simp only [stepOp] at hit
    unfold update_item at hit
    split at hit
    · exact ⟨(hinv it hit).1, le_trans (hinv it hit).2 ht⟩
    · rename_i x hfind
      by_cases hv : violatesNotNull u = true
      · rw [if_pos hv] at hit
        exact ⟨(hinv it hit).1, le_trans (hinv it hit).2 ht⟩
      · rw [if_neg hv] at hit
        simp only [replaceById, List.mem_map] at hit
        obtain ⟨y, hy, hity⟩ := hit
        have hx := hinv x (List.mem_of_find?_eq_some hfind)
        by_cases hid : (y.id == i) = true
        · rw [if_pos hid] at hity
          subst hity
          exact ⟨le_trans hx.1 (le_trans hx.2 ht), le_refl _⟩
        · rw [if_neg hid] at hity
          subst hity
          exact ⟨(hinv y hy).1, le_trans (hinv y hy).2 ht⟩
  · intro it hit
    simp only [stepOp] at hit
    unfold delete_item at hit
    cases hfind : db.rows.find? (fun x => x.id == i) with
    | none =>
      rw [hfind] at hit
      exact ⟨(hinv it hit).1, le_trans (hinv it hit).2 ht⟩
    | some x =>
      rw [hfind] at hit
      have hit2 := List.mem_of_mem_filter hit
      exact ⟨(hinv it hit2).1, le_trans (hinv it hit2).2 ht⟩

theorem created_le_updated_run :
    ∀ (ops : List (Op × Nat)) (db : DB) (t0 : Nat), TimeInv t0 db →
      chrono t0 ops = true →
      ∀ it ∈ (runOps db ops).rows, it.created_at ≤ it.updated_at
  | [], _, _, hinv, _ => fun it hit => (hinv it hit).1
  | (op, t) :: rest, db, t0, hinv, hchrono => by
    simp only [chrono, Bool.and_eq_true, decide_eq_true_eq] at hchrono
    exact created_le_updated_run rest (stepOp db op t) t
      (timeInv_step db op t t0 hinv hchrono.1) hchrono.2

theorem update_preserves_ids (rows : List Item) (i : Nat) (u : ItemUpdate)
    (now : Nat) : ((update_item rows i u now).2).map Item.id = rows.map Item.id := by
  unfold update_item
  cases hfind : rows.find? (fun x => x.id == i) with
  | none => rfl
  | some x =>
    by_cases hv : violatesNotNull u = true
    · simp only [hv, if_true]
    · simp only [hv, if_false, Bool.false_eq_true, replaceById, List.map_map]
      apply List.map_congr_left
      intro y _
      simp only [Function.comp]
      by_cases hid : (y.id == i) = true
      · rw [if_pos hid]
        have hxid := List.find?_some hfind
        show x.id = y.id
        simp only [beq_iff_eq] at hid hxid
        rw [hid, hxid]
      · rw [if_neg hid]

/-! ### Characterization of `update_item` outcomes -/

theorem update_item_eq (rows : List Item) (i : Nat) (u : ItemUpdate)
    (now : Nat) (it : Item)
    (hfind : rows.find? (fun x => x.id == i) = some it)
    (hok : violatesNotNull u = false) :
    update_item rows i u now =
      (.updated (setFields it u now), replaceById rows i (setFields it u now)) := by
  unfold update_item
  rw [hfind]
  simp [hok]

theorem update_item_violation (rows : List Item) (i : Nat) (u : ItemUpdate)
    (now : Nat) (it : Item)
    (hfind : rows.find? (fun x => x.id == i) = some it)
    (hviol : violatesNotNull u = true) :
    update_item rows i u now = (.integrityError, rows) := by
  unfold update_item
  rw [hfind]
  simp [hviol]

theorem update_item_absent (rows : List Item) (i : Nat) (u : ItemUpdate)
    (now : Nat) (hfind : rows.find? (fun x => x.id == i) = none) :
    update_item rows i u now = (.notFound, rows) := by
  unfold update_item
  rw [hfind]

/-! ### The claims -/

/-- C1: for every list query accepted by validation, the returned pagination
metadata satisfies exactly `page = floor(skip / limit) + 1` and
`pages = ceil(total / limit)` when `total > 0`, else `pages = 1`; `page` is
computed from `skip` and `limit` in the response, not tracked separately. -/
theorem C1_pagination_metadata (rows : List Item) (skip limit : Int)
    (s st c l : Option String) (res : ItemList)
    (h : read_items false rows skip limit s st c l = .ok res) :
    res.page = skip.toNat ⌊/⌋ limit.toNat + 1 ∧
      res.pages = (if 0 < res.total then res.total ⌈/⌉ limit.toNat else 1) ∧
      res.per_page = limit.toNat := by
  unfold read_items at h
  split_ifs at h
  injection h with h2
  subst h2
  refine ⟨rfl, ?_, rfl⟩
  rw [Nat.ceilDiv_eq_add_pred_div]

theorem C1_pagination_metadata_witness :
    read_items false [rowA, rowB] 3 2 none none none none =
        .ok ⟨[], 2, 2, 2, 1⟩ ∧
      (⟨[], 2, 2, 2, 1⟩ : ItemList).page = (3 : Int).toNat ⌊/⌋ (2 : Int).toNat + 1 ∧
      (⟨[], 2, 2, 2, 1⟩ : ItemList).pages =
        (if 0 < (⟨[], 2, 2, 2, 1⟩ : ItemList).total then
          (⟨[], 2, 2, 2, 1⟩ : ItemList).total ⌈/⌉ (2 : Int).toNat else 1) ∧
      (⟨[], 2, 2, 2, 1⟩ : ItemList).per_page = (2 : Int).toNat := by
  have hc := C1_pagination_metadata [rowA, rowB] 3 2 none none none none
    ⟨[], 2, 2, 2, 1⟩ (by decide)
  exact ⟨by decide, hc⟩

/-- C2: the total a list query reports is the number of records matching the
filters before `skip`/`limit` are applied, so it is invariant under changes
to `skip` and `limit` alone; and when `skip` is at least the total, the page
of items is empty while the total is unchanged. -/
theorem C2_total_invariant (rows : List Item) (skip limit skip2 limit2 : Nat)
    (s st c l : Option String) :
    (get_items rows skip limit s st c l).2 =
        (get_items rows skip2 limit2 s st c l).2 ∧
      (get_items rows skip limit s st c l).2 =
        (filterQuery s st c l rows).length ∧
      ((get_items rows skip limit s st c l).2 ≤ skip →
        (get_items rows skip limit s st c l).1 = []) := by
  refine ⟨rfl, rfl, fun hge => ?_⟩
  show ((filterQuery s st c l rows).drop skip).take limit = []
  rw [List.drop_eq_nil_of_le hge, List.take_nil]

theorem C2_total_invariant_witness :
    (get_items [rowA, rowB] 5 3 none none none none).2 =
        (get_items [rowA, rowB] 0 10 none none none none).2 ∧
      (get_items [rowA, rowB] 5 3 none none none none).2 =
        (filterQuery none none none none [rowA, rowB]).length ∧
      (get_items [rowA, rowB] 5 3 none none none none).1 = [] := by
  have hc := C2_total_invariant [rowA, rowB] 5 3 0 10 none none none none
  exact ⟨hc.1, hc.2.1, hc.2.2 (by decide)⟩

/-- C10: a filter parameter supplied as the empty string is treated exactly
as an absent parameter — Python truthiness makes `if search:` skip the filter
for `""` just as for `None` — so results and total coincide with the
parameter omitted. -/
theorem C10_empty_string_filters (rows : List Item) (skip limit : Nat)
    (s st c l : Option String) :
    get_items rows skip limit (some "") st c l =
        get_items rows skip limit none st c l ∧
      get_items rows skip limit s (some "") c l =
        get_items rows skip limit s none c l ∧
      get_items rows skip limit s st (some "") l =
        get_items rows skip limit s st none l ∧
      get_items rows skip limit s st c (some "") =
        get_items rows skip limit s st c none :=
  ⟨rfl, rfl, rfl, rfl⟩

/-- C3 counterexample: supplying `name` explicitly as null is an explicitly
present field, yet it is not written — the commit violates the NOT NULL
constraint on `items.name`, the transaction fails, the stored row keeps all
its old values and `updated_at` is not refreshed. -/
theorem C3_counterexample :
    updNullName.name = some none ∧
      update_item [itemA] 1 updNullName 5 = (.integrityError, [itemA]) ∧
      itemA.updated_at = 0 := by
  refine ⟨rfl, by decide, rfl⟩

/-- C3 (amended): for a partial update of an existing item that does not
supply an explicit null for a NOT NULL column (`name`, `status`,
`is_fragile`), exactly the fields explicitly present in the request are
overwritten with the supplied values — an explicit null is written for the
nullable fields — every omitted field keeps its pre-update value, and
`updated_at` is refreshed to the current server time even when no supplied
field changes value; `id` and `created_at` are untouched. -/
theorem C3_partial_update_amended (rows : List Item) (i now : Nat)
    (u : ItemUpdate) (it it2 : Item)
    (hfind : rows.find? (fun x => x.id == i) = some it)
    (hok : violatesNotNull u = false)
    (hupd : (update_item rows i u now).1 = .updated it2) :
    (u.name = none → it2.name = it.name) ∧
      (∀ v, u.name = some (some v) → it2.name = v) ∧
      (u.description = none → it2.description = it.description) ∧
      (∀ d, u.description = some d → it2.description = d) ∧
      (u.location = none → it2.location = it.location) ∧
      (∀ d, u.location = some d → it2.location = d) ∧
      (u.status = none → it2.status = it.status) ∧
      (∀ v, u.status = some (some v) → it2.status = v) ∧
      (u.category = none → it2.category = it.category) ∧
      (∀ d, u.category = some d → it2.category = d) ∧
      (u.is_fragile = none → it2.is_fragile = it.is_fragile) ∧
      (∀ b, u.is_fragile = some (some b) → it2.is_fragile = b) ∧
      (u.image_url = none → it2.image_url = it.image_url) ∧
      (∀ d, u.image_url = some d → it2.image_url = d) ∧
      it2.updated_at = now ∧ it2.created_at = it.created_at ∧
      it2.id = it.id := by
  rw [update_item_eq rows i u now it hfind hok] at hupd
  have hupd2 : UpdateOutcome.updated (setFields it u now) =
      UpdateOutcome.updated it2 := hupd
  injection hupd2 with h2
  subst h2
  exact ⟨fun h => by simp [setFields, h], fun v h => by simp [setFields, h],
    fun h => by simp [setFields, h], fun d h => by simp [setFields, h],
    fun h => by simp [setFields, h], fun d h => by simp [setFields, h],
    fun h => by simp [setFields, h], fun v h => by simp [setFields, h],
    fun h => by simp [setFields, h], fun d h => by simp [setFields, h],
    fun h => by simp [setFields, h], fun b h => by simp [setFields, h],
    fun h => by simp [setFields, h], fun d h => by simp [setFields, h],
    rfl, rfl, rfl⟩

theorem C3_partial_update_amended_witness :
    (setFields itemA updAttic 5).location = some "Attic" ∧
      (setFields itemA updAttic 5).name = itemA.name ∧
      (setFields itemA updAttic 5).updated_at = 5 ∧
      (setFields itemA updAttic 5).created_at = itemA.created_at := by
  have hc := C3_partial_update_amended [itemA] 1 5 updAttic itemA
    (setFields itemA updAttic 5) (by decide) (by decide) (by decide)
  obtain ⟨h1, _, _, _, _, h6, _, _, _, _, _, _, _, _, h15, h16, _⟩ := hc
  exact ⟨h6 (some "Attic") rfl, h1 rfl, h15, h16⟩

/-- C5: for an identifier with no matching record, get-by-id returns `None`
as a value, partial update reports not-found and leaves the store unchanged
without creating a row, delete reports not-found rather than faulting, and
the gateway maps each absence to a 404 that differs from the 422 used for
validation failure. -/
theorem C5_not_found (rows : List Item) (i now : Nat) (u : ItemUpdate)
    (habs : ∀ it ∈ rows, ¬it.id = i) :
    get_item rows i = none ∧
      update_item rows i u now = (.notFound, rows) ∧
      delete_item rows i = (false, rows) ∧
      read_item false rows i = .clientError 404 "Item not found" ∧
      update_existing_item false rows i u now =
        (.clientError 404 "Item not found", rows) ∧
      delete_existing_item false rows i =
        (.clientError 404 "Item not found", rows) ∧
      (read_item false rows i).statusCode = 404 ∧
      (read_items false rows (-1) 10 none none none none).statusCode = 422 ∧
      (404 : Nat) ≠ 422 := by
  have hf : rows.find? (fun it => it.id == i) = none := by
    rw [List.find?_eq_none]
    intro x hx
    simpa using habs x hx
  have h1 : get_item rows i = none := hf
  have h2 := update_item_absent rows i u now hf
  have h3 : delete_item rows i = (false, rows) := by
    unfold delete_item
    rw [hf]
  have h4 : read_item false rows i = .clientError 404 "Item not found" := by
    simp [read_item, h1]
  exact ⟨h1, h2, h3, h4, by simp [update_existing_item, h2],
    by simp [delete_existing_item, h3], by rw [h4]; rfl, rfl, by decide⟩

theorem C5_not_found_witness :
    get_item [rowA] 99 = none ∧
      update_item [rowA] 99 updAttic 7 = (.notFound, [rowA]) ∧
      delete_item [rowA] 99 = (false, [rowA]) ∧
      (read_item false [rowA] 99).statusCode = 404 := by
  have hc := C5_not_found [rowA] 99 7 updAttic (by decide)
  exact ⟨hc.1, hc.2.1, hc.2.2.1, hc.2.2.2.2.2.2.1⟩

/-- C6: list requests with `limit ≤ 0` are rejected with a 422 validation
error (never silently accepted), `limit` is bounded above by 100, a negative
`skip` is rejected, and every request with `skip ≥ 0` and `1 ≤ limit ≤ 100`
is accepted. -/
theorem C6_limit_validation (rows : List Item) (skip limit : Int)
    (s st c l : Option String) :
    (skip < 0 → read_items false rows skip limit s st c l =
        .clientError 422 "skip must be greater than or equal to 0") ∧
      (0 ≤ skip → limit < 1 → read_items false rows skip limit s st c l =
        .clientError 422 "limit must be greater than or equal to 1") ∧
      (0 ≤ skip → 100 < limit → read_items false rows skip limit s st c l =
        .clientError 422 "limit must be less than or equal to 100") ∧
      (0 ≤ skip → 1 ≤ limit → limit ≤ 100 →
        ∃ res, read_items false rows skip limit s st c l = .ok res) := by
  refine ⟨fun h1 => ?_, fun h1 h2 => ?_, fun h1 h2 => ?_, fun h1 h2 h3 => ?_⟩
  · unfold read_items
    rw [if_pos h1]
  · unfold read_items
    rw [if_neg (by omega), if_pos h2]
  · unfold read_items
    rw [if_neg (by omega), if_neg (by omega), if_pos h2]
  · unfold read_items
    rw [if_neg (by omega), if_neg (by omega), if_neg (by omega),
      if_neg Bool.false_ne_true]
    exact ⟨_, rfl⟩

theorem C6_limit_validation_witness :
    read_items false [rowA] (-1) 10 none none none none =
        .clientError 422 "skip must be greater than or equal to 0" ∧
      read_items false [rowA] 0 0 none none none none =
        .clientError 422 "limit must be greater than or equal to 1" ∧
      read_items false [rowA] 0 101 none none none none =
        .clientError 422 "limit must be less than or equal to 100" ∧
      ∃ res, read_items false [rowA] 0 10 none none none none = .ok res := by
  refine ⟨(C6_limit_validation [rowA] (-1) 10 none none none none).1 (by decide),
    (C6_limit_validation [rowA] 0 0 none none none none).2.1
      (by decide) (by decide),
    (C6_limit_validation [rowA] 0 101 none none none none).2.2.1
      (by decide) (by decide),
    (C6_limit_validation [rowA] 0 10 none none none none).2.2.2
      (by decide) (by decide) (by decide)⟩

/-- C4 counterexample: with `search = "a_b"` the code's ILIKE filter matches
the item named "axb" (`_` is a single-character wildcard), although "a_b" is
not a substring of "axb" — so the search filter is not a plain
case-insensitive substring match. -/
theorem C4_counterexample :
    substrCI "a_b" "axb" = false ∧
      (get_items [itemAXB] 0 10 (some "a_b") none none none).1 = [itemAXB] ∧
      (get_items [itemAXB] 0 10 (some "a_b") none none none).2 = 1 := by
  refine ⟨by decide, by decide, by decide⟩

/-- C4 (amended): present filters combine with logical AND, absent filters
impose no restriction, `status` and `category` are exact equality matches,
and `search`/`location` match through the SQL ILIKE pattern `%…%`, in which
`%`, `_` and `\` are metacharacters; on search strings free of those
metacharacters the match coincides with the spec's case-insensitive
substring match. -/
theorem C4_filters_amended (s st c l : Option String) (rows : List Item)
    (skip limit : Nat) (it : Item) (sq tq : String)
    (hq : litOnly (foldCase sq) = true) :
    (it ∈ filterQuery s st c l rows ↔
      it ∈ rows ∧ searchPred s it = true ∧ statusPred st it = true ∧
        categoryPred c it = true ∧ locationPred l it = true) ∧
      (get_items rows skip limit s st c l).1 =
        ((filterQuery s st c l rows).drop skip).take limit ∧
      ilikeMatch ("%" ++ sq ++ "%") tq = substrCI sq tq :=
  ⟨mem_filterQuery s st c l rows it, rfl, ilike_substr sq tq hq⟩

theorem C4_filters_amended_witness :
    litOnly (foldCase "lamp") = true ∧
      (rowA ∈ filterQuery (some "a") none none none [rowA, rowB] ↔
        rowA ∈ [rowA, rowB] ∧ searchPred (some "a") rowA = true ∧
          statusPred none rowA = true ∧ categoryPred none rowA = true ∧
          locationPred none rowA = true) ∧
      ilikeMatch "%lamp%" "Desk Lamp" = substrCI "lamp" "Desk Lamp" := by
  have hc := C4_filters_amended (some "a") none none none [rowA, rowB] 0 10
    rowA "lamp" "Desk Lamp" (by decide)
  exact ⟨by decide, hc.1, hc.2.2⟩

/-- C7 counterexample: a storage fault during create is caught by the
handler's blanket `except Exception` and surfaces as a 400 — a client-error
status, not a server-error one. -/
theorem C7_counterexample :
    (create_new_item true emptyDB lampCreate 0).1 =
        .clientError 400 "Error creating item: storage failure" ∧
      ((create_new_item true emptyDB lampCreate 0).1).statusCode = 400 :=
  ⟨rfl, rfl⟩

/-- C7 (amended): a storage fault during get-by-id, list, update or delete
propagates uncaught and surfaces as a 500 server error — distinct from 404
and 422 — with the store unchanged; during create the blanket handler maps
the fault to a 400 client error whose detail carries the error text, so the
fault is surfaced rather than swallowed, but with a client-error status. -/
theorem C7_storage_faults_amended (rows : List Item) (db : DB) (i now : Nat)
    (u : ItemUpdate) (c : ItemCreate) (skip limit : Int)
    (s st cg l : Option String) (hskip : 0 ≤ skip) (hlim : 1 ≤ limit)
    (hcap : limit ≤ 100) :
    read_item true rows i = .serverError 500 ∧
      update_existing_item true rows i u now = (.serverError 500, rows) ∧
      delete_existing_item true rows i = (.serverError 500, rows) ∧
      read_items true rows skip limit s st cg l = .serverError 500 ∧
      (create_new_item true db c now).1 =
        .clientError 400 "Error creating item: storage failure" ∧
      (create_new_item true db c now).2 = db := by
  refine ⟨rfl, rfl, rfl, ?_, rfl, rfl⟩
  unfold read_items
  rw [if_neg (by omega), if_neg (by omega), if_neg (by omega), if_pos rfl]

theorem C7_storage_faults_amended_witness :
    read_item true [rowA] 1 = .serverError 500 ∧
      read_items true [rowA] 0 10 none none none none = .serverError 500 ∧
      (create_new_item true emptyDB lampCreate 3).1 =
        .clientError 400 "Error creating item: storage failure" := by
  have hc := C7_storage_faults_amended [rowA] emptyDB 1 3 updAttic lampCreate
    0 10 none none none none (by decide) (by decide) (by decide)
  exact ⟨hc.1, hc.2.2.2.1, hc.2.2.2.2.1⟩

/-- C8 counterexample: `crud.get_items` issues no ORDER BY, so the backend
may enumerate the same stored rows in any order; for two enumerations that
hold exactly the same rows (a permutation), the same paged query returns
different pages, and `rowA` appears on page 1 of one enumeration and page 2
of the other — pages taken across runs can overlap and omit. -/
theorem C8_counterexample :
    List.Perm [rowB, rowA] [rowA, rowB] ∧
      (get_items [rowA, rowB] 0 1 none none none none).1 = [rowA] ∧
      (get_items [rowB, rowA] 0 1 none none none none).1 = [rowB] ∧
      (get_items [rowA, rowB] 0 1 none none none none).1 ≠
        (get_items [rowB, rowA] 0 1 none none none none).1 ∧
      (get_items [rowB, rowA] 1 1 none none none none).1 = [rowA] := by
  refine ⟨List.Perm.swap rowA rowB [], by decide, by decide, by decide,
    by decide⟩

/-- C8 (amended): when the backend enumerates the stored rows in one fixed
stable order (the insertion order of the model), the list query is a pure
function of the store and the parameters, and the pages produced by
successive skips of `limit` concatenate back to exactly the filtered match
list — no overlap and no omission. -/
theorem C8_pagination_partition_amended (rows : List Item)
    (s st c l : Option String) (limit n : Nat)
    (hn : (filterQuery s st c l rows).length ≤ n * limit) :
    ((List.range n).map fun k =>
        (get_items rows (k * limit) limit s st c l).1).flatten =
      filterQuery s st c l rows :=
  join_chunks n limit _ hn

theorem C8_pagination_partition_amended_witness :
    (filterQuery none none none none [rowA, rowB]).length ≤ 2 * 1 ∧
      ((List.range 2).map fun k =>
          (get_items [rowA, rowB] (k * 1) 1 none none none none).1).flatten =
        filterQuery none none none none [rowA, rowB] :=
  ⟨by decide, C8_pagination_partition_amended [rowA, rowB] none none none none
    1 2 (by decide)⟩

/-- C9: over any timestamped sequence of create/update/delete requests whose
server clock never goes backwards, every stored row satisfies
`created_at ≤ updated_at`; an update never changes any row's `id`; and a
successful partial update keeps every omitted field — as well as `id` and
`created_at` — exactly as before. -/
theorem C9_invariants (db : DB) (t0 : Nat) (ops : List (Op × Nat))
    (hinv : TimeInv t0 db) (hchrono : chrono t0 ops = true)
    (rows : List Item) (i now : Nat) (u : ItemUpdate) (it it2 : Item)
    (hfind : rows.find? (fun x => x.id == i) = some it)
    (hupd : (update_item rows i u now).1 = .updated it2) :
    (∀ r ∈ (runOps db ops).rows, r.created_at ≤ r.updated_at) ∧
      ((update_item rows i u now).2).map Item.id = rows.map Item.id ∧
      it2.id = it.id ∧ it2.created_at = it.created_at ∧
      (u.name = none → it2.name = it.name) ∧
      (u.description = none → it2.description = it.description) ∧
      (u.location = none → it2.location = it.location) ∧
      (u.status = none → it2.status = it.status) ∧
      (u.category = none → it2.category = it.category) ∧
      (u.is_fragile = none → it2.is_fragile = it.is_fragile) ∧
      (u.image_url = none → it2.image_url = it.image_url) := by
  have hok : violatesNotNull u = false := by
    by_cases hv : violatesNotNull u = true
    · rw [update_item_violation rows i u now it hfind hv] at hupd
      simp at hupd
    · simpa using hv
  rw [update_item_eq rows i u now it hfind hok] at hupd
  have hupd2 : UpdateOutcome.updated (setFields it u now) =
      UpdateOutcome.updated it2 := hupd
  injection hupd2 with h2
  subst h2
  exact ⟨created_le_updated_run ops db t0 hinv hchrono,
    update_preserves_ids rows i u now, rfl, rfl,
    fun h => by simp [setFields, h], fun h => by simp [setFields, h],
    fun h => by simp [setFields, h], fun h => by simp [setFields, h],
    fun h => by simp [setFields, h], fun h => by simp [setFields, h],
    fun h => by simp [setFields, h]⟩

theorem C9_invariants_witness :
    (∀ r ∈ (runOps emptyDB
        [(Op.create lampCreate, 1), (Op.update 1 updAttic, 2)]).rows,
      r.created_at ≤ r.updated_at) ∧
      ((update_item [itemA] 1 updAttic 9).2).map Item.id =
        [itemA].map Item.id ∧
      (setFields itemA updAttic 9).id = itemA.id ∧
      (setFields itemA updAttic 9).name = itemA.name := by
  have hc := C9_invariants emptyDB 0
    [(Op.create lampCreate, 1), (Op.update 1 updAttic, 2)]
    (by intro it hit; simp [emptyDB] at hit) (by decide)
    [itemA] 1 9 updAttic itemA (setFields itemA updAttic 9)
    (by decide) (by decide)
  exact ⟨hc.1, hc.2.1, hc.2.2.1, hc.2.2.2.2.1 rfl⟩

end ItemTracker
